import Mathlib

/-!
Verification of the Meowster Discord bot (the coherent source variant
`src/unnamed/part_000`; `src/main.py` is a near-duplicate whose augmented-branch
fallback block is syntactically malformed and treated as dead code, following
the repository's own documented intent).

The embedding models:
* Python's substring test `needle in hay` (`occurs`),
* the meme fetcher `get_cat_meme`,
* the channel selector `pick_channel_for_guild`,
* the message handler `on_message` with its tracking state, cooldown gate and
  three response branches (keyword meme / augmented OpenAI reply / ambient
  fallback), randomness supplied by an explicit oracle,
* the two scheduled jobs (`daily_cat_meme` trace, `before_daily_cat_meme`
  first-run computation).
-/

namespace Purruga

/-- `isPrefixList n h` is true when the char list `n` is an initial segment of
`h`.  Helper for the Python substring operator. -/
def isPrefixList : List Char → List Char → Bool
  | [], _ => true
  | _ :: _, [] => false
  | a :: as, b :: bs => a == b && isPrefixList as bs

/-- `occurs n h` mirrors Python's `n in h` on strings: `n` occurs as a
contiguous substring of `h`. -/
def occurs (needle : List Char) : List Char → Bool
  | [] => needle.isEmpty
  | c :: rest => isPrefixList needle (c :: rest) || occurs needle rest

/-- Python's `s.lower()` restricted to the ASCII case mapping used by the
bot's keyword and extension checks. -/
def lowerStr (s : String) : List Char := s.data.map Char.toLower

/-- `strIn needle hay` mirrors `needle in hay` for strings. -/
def strIn (needle : String) (hay : List Char) : Bool := occurs needle.data hay

/-- Configuration values read from the environment (with their defaults):
`REPLY_PROBABILITY`, `CHANNEL_COOLDOWN`, `USER_COOLDOWN`, and whether
`OPENAI_API_KEY` was present (so `openai_client` is not `None`). -/
structure Config where
  probability : ℚ
  channelCooldown : ℚ
  userCooldown : ℚ
  openaiClient : Bool

/-- The fixed list `cat_phrases` of the source. -/
def cat_phrases : List String :=
  [ "Meowdy! 😺",
    "Purrhaps... 🐾",
    "Cats > Humans 🐈",
    "Give me snacks! 🐟",
    "*knocks cup off table* 🥛",
    "Nyaa~ 💖",
    "I\x27m feline good today! 😸",
    "*stretches and yawns* 😴",
    "Paws what you\x27re doing! 🐾",
    "That\x27s purrfect! ✨",
    "I\x27m not kitten around! 😹",
    "*rubs against your leg* 🐱" ]

/-- The fixed keyword list `cat_keywords` of `on_message`. -/
def cat_keywords : List String :=
  ["meow", "purr", "cat", "kitten", "kitty", "feline", "whiskers", "paw", "tail"]

/-- The fixed reaction emoji list of the ambient fallback branch. -/
def reactions : List String := ["🐱", "😺", "😸", "😹", "😻", "🐾", "❤️"]

/-- The `personal_responses` list of the augmented branch's fallback, with the
f-string interpolation of the sender's display name made explicit. -/
def personal_responses (n : String) : List String :=
  [ "@" ++ n ++ ", you\x27re purrfect! 😺",
    "Hey @" ++ n ++ "! *headbutts affectionately* 🐾",
    "@" ++ n ++ ", stop hogging all the attention! 😹",
    "Paws up, @" ++ n ++ "! You\x27re awesome! 🐾",
    "*meows at @" ++ n ++ "* Notice me! 🐱",
    "@" ++ n ++ ", you deserve all the treats! 🐟" ]

/-- The extension allow-list of `get_cat_meme`. -/
def image_exts : List String := [".jpg", ".jpeg", ".png", ".gif", ".webp"]

/-- The validation `any(ext in image_url.lower() for ext in [...])`. -/
def isImageUrl (u : String) : Bool :=
  image_exts.any fun e => strIn e (lowerStr u)

/-- What the meme API HTTP call can yield: a status code and the optional
`url` field of the JSON body. -/
structure HttpResp where
  status : ℕ
  url : Option String

/-- `get_cat_meme`: on a 200 response whose `url` field is a non-empty string
containing an allow-listed image extension, return it; in every other case —
non-200 status, missing or empty url, failed validation, or a raised
error/timeout (the `Except.error` case) — return `none`. -/
def get_cat_meme (resp : Except Unit HttpResp) : Option String :=
  match resp with
  | .error _ => none
  | .ok r =>
    if r.status = 200 then
      match r.url with
      | some u => if !u.isEmpty && isImageUrl u then some u else none
      | none => none
    else none

/-- A guild text channel, as seen by the selector: its name and the bot's
computed permissions there. -/
structure Channel where
  name : String
  viewChannel : Bool
  sendMessages : Bool
  deriving DecidableEq

/-- A guild: optional system channel and the text channels in enumeration
order. -/
structure Guild where
  systemChannel : Option Channel
  textChannels : List Channel

/-- The substring names looked for by the selector's second step. -/
def general_names : List String := ["general", "chat", "main", "lobby"]

/-- `any(name in channel.name.lower() for name in general_names)`. -/
def hasGeneralName (s : String) : Bool :=
  general_names.any fun n => strIn n (lowerStr s)

/-- The second loop's body: first channel whose lowered name contains one of
`general_names` and where the bot can view and send (non-matching channels
are skipped, the loop continues). -/
def findGeneralChannel : List Channel → Option Channel
  | [] => none
  | c :: rest =>
    if hasGeneralName c.name then
      if c.viewChannel && c.sendMessages then some c else findGeneralChannel rest
    else findGeneralChannel rest

/-- The third loop's body: first channel where the bot can view and send. -/
def findWritableChannel : List Channel → Option Channel
  | [] => none
  | c :: rest =>
    if c.viewChannel && c.sendMessages then some c else findWritableChannel rest

/-- `pick_channel_for_guild`: system channel if sendable, else the general-name
search, else the first writable channel, else `none`. -/
def pick_channel_for_guild (g : Guild) : Option Channel :=
  match g.systemChannel with
  | some sc =>
    if sc.sendMessages then some sc
    else
      match findGeneralChannel g.textChannels with
      | some c => some c
      | none => findWritableChannel g.textChannels
  | none =>
    match findGeneralChannel g.textChannels with
    | some c => some c
    | none => findWritableChannel g.textChannels

/-- The channel-selector contract exactly as the specification words it:
system channel when sendable; otherwise the first channel in enumeration
order whose name contains one of the literal substrings (case-insensitively)
and where the bot can view and send; otherwise the first channel where the bot
can view and send; otherwise none.  Stated with `List.find?` to be compared
with the source-derived `pick_channel_for_guild`. -/
def pick_channel_spec (g : Guild) : Option Channel :=
  let byName := g.textChannels.find? fun c =>
    hasGeneralName c.name && c.viewChannel && c.sendMessages
  let writable := g.textChannels.find? fun c => c.viewChannel && c.sendMessages
  let fallback := match byName with
    | some c => some c
    | none => writable
  match g.systemChannel with
  | some sc => if sc.sendMessages then some sc else fallback
  | none => fallback

/-- `get_all_target_channels`: selected channel of every guild that resolves
one, in guild enumeration order. -/
def get_all_target_channels (gs : List Guild) : List Channel :=
  gs.filterMap pick_channel_for_guild

/-- One iteration record of the daily job's loop: the target channel, the
fetch result, and whether a send was attempted / succeeded. -/
structure DailyStep where
  channel : Channel
  fetched : Option String
  sendAttempted : Bool
  sendSucceeded : Bool
  deriving DecidableEq

/-- The body of `daily_cat_meme`'s loop: per target channel, one
`get_cat_meme()` call (result given by the `fetch` oracle at the iteration
index); a send is attempted only when the fetch returned a url, and a failed
send (the `sendOk` oracle) is caught so the loop continues. -/
def daily_loop (fetch : ℕ → Option String) (sendOk : ℕ → Bool) :
    ℕ → List Channel → List DailyStep
  | _, [] => []
  | i, c :: rest =>
    (match fetch i with
     | some u => ⟨c, some u, true, sendOk i⟩
     | none => ⟨c, none, false, false⟩) :: daily_loop fetch sendOk (i + 1) rest

/-- `daily_cat_meme`: iterate the loop body over all resolvable targets. -/
def daily_cat_meme (gs : List Guild) (fetch : ℕ → Option String)
    (sendOk : ℕ → Bool) : List DailyStep :=
  daily_loop fetch sendOk 0 (get_all_target_channels gs)

/-- A local wall-clock instant: the calendar day (as an index) and the elapsed
seconds of that day (rational, carrying sub-second precision). -/
structure WallClock where
  day : ℕ
  sod : ℚ
  deriving DecidableEq

/-- Total seconds represented by a wall-clock instant. -/
def toSeconds (t : WallClock) : ℚ := (t.day : ℚ) * 86400 + t.sod

/-- `before_daily_cat_meme`'s computation: today's `DAILY_HOUR:00:00`, bumped
to tomorrow exactly when `now > target_time` (same day, so the comparison is
on seconds-of-day). -/
def first_run_time (dailyHour : ℕ) (now : WallClock) : WallClock :=
  if (dailyHour : ℚ) * 3600 < now.sod then ⟨now.day + 1, (dailyHour : ℚ) * 3600⟩
  else ⟨now.day, (dailyHour : ℚ) * 3600⟩

/-- Everything non-deterministic one `on_message` invocation can consume:
the `random.random()` draws of each branch guard, the `random.choice` indices
(a uniform choice from a list of length `n` is modelled as `idx % n`), the
results of the two external calls, and whether the single outbound
send/reaction attempt succeeds. -/
structure Oracle where
  augDraw : ℚ
  fbDraw : ℚ
  reactDraw : ℚ
  reactIdx : ℕ
  phraseIdx : ℕ
  personalIdx : ℕ
  memeResult : Option String
  aiResult : Option String
  sendOk : Bool

/-- An inbound message event. -/
structure Message where
  authorId : ℕ
  authorIsBot : Bool
  displayName : String
  channelId : ℕ
  content : String

/-- The four module-level tracking dictionaries, as total maps. -/
structure BotState where
  last_channel_reply : ℕ → Option ℚ
  last_user_reply : ℕ → Option ℚ
  activity_count : ℕ → ℕ
  user_message_history : ℕ → List String

/-- One outbound action the handler can attempt. -/
inductive Action where
  | sendMessage (channelId : ℕ) (text : String)
  | addReaction (emoji : String)
  deriving DecidableEq

/-- The history update of `on_message`: append, then keep only the last 10
entries (`history[-10:]`) when the list has grown past 10. -/
def append_history (l : List String) (m : String) : List String :=
  if (l ++ [m]).length > 10 then (l ++ [m]).drop ((l ++ [m]).length - 10)
  else l ++ [m]

/-- The text sent by the augmented branch: the OpenAI reply when it produced
one, else a uniform choice from `personal_responses`; either way prefixed /
interpolated with an `@display-name` mention. -/
def augmented_reply (o : Oracle) (name : String) : String :=
  match o.aiResult with
  | some t => "@" ++ name ++ " " ++ t
  | none => (personal_responses name).getD (o.personalIdx % 6) ""

/-- The three response branches of `on_message` (source lines 342-398 of
`part_000`), returning the `responded` flag and the attempted outbound
actions.  Exceptions raised by a send are caught in the source, leaving
`responded` false; here `o.sendOk` plays that role. -/
def respond_branches (cfg : Config) (o : Oracle) (cid : ℕ) (name : String)
    (contentLower : List Char) (isActive : Bool) : Bool × List Action :=
  if cat_keywords.any (fun kw => occurs kw.data contentLower) then
    match o.memeResult with
    | some url => (o.sendOk, [Action.sendMessage cid ("🐱 " ++ url)])
    | none => (false, [])
  else if cfg.openaiClient && (isActive || decide (o.augDraw < 2/5)) then
    (o.sendOk, [Action.sendMessage cid (augmented_reply o name)])
  else if o.fbDraw < cfg.probability * (1/2) then
    if o.reactDraw < 3/10 then
      (o.sendOk, [Action.addReaction (reactions.getD (o.reactIdx % 7) "")])
    else
      (o.sendOk, [Action.sendMessage cid (cat_phrases.getD (o.phraseIdx % 12) "")])
  else (false, [])

/-- The unconditional tracking step of `on_message`: bump the author's
activity count and append the message to their history. -/
def tracked_state (st : BotState) (msg : Message) : BotState :=
  { st with
    activity_count := fun u =>
      if u = msg.authorId then st.activity_count msg.authorId + 1
      else st.activity_count u
    user_message_history := fun u =>
      if u = msg.authorId then
        append_history (st.user_message_history msg.authorId) msg.content
      else st.user_message_history u }

/-- The channel cooldown check:
`channel_id in last_channel_reply and now - last_channel_reply[channel_id] < CHANNEL_COOLDOWN`. -/
def chan_blocked (cfg : Config) (now : ℚ) (st : BotState) (cid : ℕ) : Bool :=
  match st.last_channel_reply cid with
  | some t => decide (now - t < cfg.channelCooldown)
  | none => false

/-- The user cooldown check, same shape on `last_user_reply`. -/
def user_blocked (cfg : Config) (now : ℚ) (st : BotState) (uid : ℕ) : Bool :=
  match st.last_user_reply uid with
  | some t => decide (now - t < cfg.userCooldown)
  | none => false

/-- `on_message`: ignore bot authors; unconditionally bump the author's
activity count and message history; return silently while the channel or the
user is inside its cooldown window; otherwise run the branch cascade and, if
it responded, stamp both cooldown maps with `now`. -/
def on_message (cfg : Config) (o : Oracle) (now : ℚ) (st : BotState)
    (msg : Message) : BotState × List Action :=
  if msg.authorIsBot then (st, []) else
  let st2 := tracked_state st msg
  if chan_blocked cfg now st msg.channelId then (st2, []) else
  if user_blocked cfg now st msg.authorId then (st2, []) else
  let res := respond_branches cfg o msg.channelId msg.displayName
    (lowerStr msg.content) (decide (10 ≤ st.activity_count msg.authorId + 1))
  if res.1 then
    ({ st2 with
        last_channel_reply := fun c =>
          if c = msg.channelId then some now else st.last_channel_reply c
        last_user_reply := fun u =>
          if u = msg.authorId then some now else st.last_user_reply u },
      res.2)
  else (st2, res.2)

/-- `content = message.content.lower()` followed by the keyword test. -/
def hasCatKeyword (content : String) : Bool :=
  cat_keywords.any fun kw => occurs kw.data (lowerStr content)

/-! ### Helper lemmas: substrings and string data -/

lemma data_append (s t : String) : (s ++ t).data = s.data ++ t.data := by
  cases s; cases t; rfl

lemma isPrefixList_append_self (n : List Char) :
    ∀ rest, isPrefixList n (n ++ rest) = true := by
  induction n with
  | nil => intro rest; rfl
  | cons a as ih => intro rest; simp [isPrefixList, ih]

lemma occurs_of_isPrefixList {n h : List Char} (hp : isPrefixList n h = true) :
    occurs n h = true := by
  cases h with
  | nil =>
    cases n with
    | nil => rfl
    | cons a as => simp [isPrefixList] at hp
  | cons c rest => simp [occurs, hp]

lemma occurs_cons {n rest : List Char} (c : Char) (h : occurs n rest = true) :
    occurs n (c :: rest) = true := by
  simp [occurs, h]

lemma occurs_append_left (pre : List Char) {n h : List Char}
    (ho : occurs n h = true) : occurs n (pre ++ h) = true := by
  induction pre with
  | nil => simpa using ho
  | cons c cs ih => simpa [List.cons_append] using occurs_cons c ih

lemma occurs_mid (pre suf n : List Char) : occurs n (pre ++ (n ++ suf)) = true :=
  occurs_append_left pre (occurs_of_isPrefixList (isPrefixList_append_self n suf))

/-! ### The message-history ring buffer (claim C4) -/

/-- Last `k` elements of a list. -/
def takeLast {α : Type*} (k : ℕ) (xs : List α) : List α :=
  xs.drop (xs.length - k)

lemma append_history_eq_takeLast (l : List String) (m : String) :
    append_history l m = takeLast 10 (l ++ [m]) := by
  unfold append_history takeLast
  split
  · rfl
  · next h =>
    have h0 : (l ++ [m]).length - 10 = 0 := by
      simp only [List.length_append, List.length_cons, List.length_nil] at h ⊢
      omega
    rw [h0, List.drop_zero]

lemma append_history_getLast (l : List String) (m : String) :
    (append_history l m).getLast? = some m := by
  unfold append_history
  split
  · rw [List.drop_append_of_le_length
      (by simp only [List.length_append, List.length_cons, List.length_nil]; omega)]
    exact List.getLast?_concat _
  · exact List.getLast?_concat l

lemma takeLast_append_takeLast {α : Type*} (k : ℕ) (xs ys : List α) :
    takeLast k (takeLast k xs ++ ys) = takeLast k (xs ++ ys) := by
  by_cases h : xs.length ≤ k
  · have h0 : xs.length - k = 0 := by omega
    simp [takeLast, h0]
  · push_neg at h
    unfold takeLast
    have e1 : ((xs.drop (xs.length - k)) ++ ys).length - k = ys.length := by
      simp only [List.length_append, List.length_drop]
      omega
    have e2 : (xs ++ ys).length - k = (xs.length - k) + ys.length := by
      simp only [List.length_append]
      omega
    rw [e1, e2, ← List.drop_drop,
      List.drop_append_of_le_length (Nat.sub_le _ _)]

lemma foldl_append_history (msgs : List String) : ∀ l : List String,
    msgs.foldl append_history (takeLast 10 l) = takeLast 10 (l ++ msgs) := by
  induction msgs with
  | nil => intro l; simp [List.foldl]
  | cons m ms ih =>
    intro l
    rw [List.foldl_cons, append_history_eq_takeLast, takeLast_append_takeLast,
      ih (l ++ [m]), List.append_assoc]
    rfl

/-- The accumulated history of a user who sent `msgs` in order, starting from
the empty history. -/
def history_of (msgs : List String) : List String :=
  msgs.foldl append_history []

/-- C4: under any sequence of appends, a user's message history never exceeds
10 entries, and its contents are exactly the most recent messages in FIFO
insertion order (`msgs.drop (msgs.length - 10)`), oldest evicted first. -/
theorem message_history_last_ten (msgs : List String) :
    history_of msgs = msgs.drop (msgs.length - 10)
    ∧ (history_of msgs).length ≤ 10 := by
  have h : history_of msgs = takeLast 10 msgs := by
    have h0 : takeLast 10 ([] : List String) = [] := rfl
    have := foldl_append_history msgs []
    rw [h0, List.nil_append] at this
    exact this
  refine ⟨h, ?_⟩
  rw [h]
  unfold takeLast
  rw [List.length_drop]
  omega

/-! ### The meme fetcher (claim C9) -/

/-- C9: `get_cat_meme` returns a url only when it passed the image-extension
validation and came from a 200 response carrying that url; on a raised
error/timeout, a non-200 status, a missing url, or a url failing validation it
returns `none` (and, being a total function of the response, never raises). -/
theorem get_cat_meme_only_valid_images (resp : Except Unit HttpResp) :
    (∀ u, get_cat_meme resp = some u →
      isImageUrl u = true ∧ ∃ r, resp = .ok r ∧ r.status = 200 ∧ r.url = some u)
    ∧ (∀ e, resp = .error e → get_cat_meme resp = none)
    ∧ (∀ r, resp = .ok r → r.status ≠ 200 → get_cat_meme resp = none)
    ∧ (∀ r, resp = .ok r → r.url = none → get_cat_meme resp = none)
    ∧ (∀ r u, resp = .ok r → r.url = some u → isImageUrl u = false →
      get_cat_meme resp = none) := by
  refine ⟨?_, ?_, ?_, ?_, ?_⟩
  · intro u hu
    cases resp with
    | error e => simp [get_cat_meme] at hu
    | ok r =>
      simp only [get_cat_meme] at hu
      by_cases hs : r.status = 200
      · rw [if_pos hs] at hu
        cases hru : r.url with
        | none => rw [hru] at hu; cases hu
        | some v =>
          rw [hru] at hu
          simp only at hu
          by_cases hv : (!v.isEmpty && isImageUrl v) = true
          · rw [if_pos hv] at hu
            cases hu
            exact ⟨(Bool.and_eq_true _ _ |>.mp hv).2, r, rfl, hs, hru⟩
          · rw [if_neg hv] at hu; cases hu
      · rw [if_neg hs] at hu; cases hu
  · intro e he; rw [he]; rfl
  · intro r hr hs
    rw [hr]
    simp only [get_cat_meme]
    rw [if_neg hs]
  · intro r hr hu
    rw [hr]
    simp only [get_cat_meme]
    rw [hu]
    split <;> rfl
  · intro r u hr hu hv
    rw [hr]
    simp only [get_cat_meme, hu]
    split
    · simp [hv]
    · rfl

/-- Witness for C9 at a concrete 200 response with a valid image url. -/
theorem get_cat_meme_only_valid_images_witness :
    isImageUrl "https://i.redd.it/cat.png" = true
    ∧ ∃ r, (Except.ok ⟨200, some "https://i.redd.it/cat.png"⟩ :
        Except Unit HttpResp) = .ok r ∧ r.status = 200
        ∧ r.url = some "https://i.redd.it/cat.png" :=
  (get_cat_meme_only_valid_images
    (.ok ⟨200, some "https://i.redd.it/cat.png"⟩)).1
    "https://i.redd.it/cat.png" (by decide)

/-! ### The channel selector (claim C6) -/

lemma findGeneralChannel_eq_find? (ts : List Channel) :
    findGeneralChannel ts
      = ts.find? fun c => hasGeneralName c.name && c.viewChannel && c.sendMessages := by
  induction ts with
  | nil => rfl
  | cons c rest ih =>
    simp only [findGeneralChannel, List.find?]
    cases hg : hasGeneralName c.name with
    | false => simp [hg, ih]
    | true =>
      cases hp : (c.viewChannel && c.sendMessages) with
      | false => simp [hg, hp, ih]
      | true => simp [hg, hp]

lemma findWritableChannel_eq_find? (ts : List Channel) :
    findWritableChannel ts = ts.find? fun c => c.viewChannel && c.sendMessages := by
  induction ts with
  | nil => rfl
  | cons c rest ih =>
    simp only [findWritableChannel, List.find?]
    cases hp : (c.viewChannel && c.sendMessages) with
    | false => simp [hp, ih]
    | true => simp [hp]

/-- C6: on any fixed snapshot of a guild's channel list and permissions, the
selector (a pure function) returns exactly what the specification's tie-break
order describes: sendable system channel first, else the first
general/chat/main/lobby-named viewable-and-sendable channel in enumeration
order, else the first viewable-and-sendable channel, else none. -/
theorem pick_channel_matches_spec (g : Guild) :
    pick_channel_for_guild g = pick_channel_spec g := by
  unfold pick_channel_for_guild pick_channel_spec
  cases g.systemChannel <;>
    simp only [findGeneralChannel_eq_find?, findWritableChannel_eq_find?]

/-! ### The daily job's first run time (claim C7) -/

/-- C7 counterexample: invoked exactly at the anchor instant (20:00:00.000000
with `DAILY_HOUR = 20`), `now > target_time` is false, so the computed first
run time equals the invocation time — it is NOT strictly in the future. -/
theorem first_run_not_strictly_future_at_anchor :
    first_run_time 20 ⟨0, 72000⟩ = ⟨0, 72000⟩
    ∧ ¬ toSeconds ⟨0, 72000⟩ < toSeconds (first_run_time 20 ⟨0, 72000⟩) := by
  constructor
  · simp only [first_run_time]
    norm_num
  · simp only [first_run_time, toSeconds]
    norm_num

/-- C7 amended: the first computed run time is never in the past — it is
strictly in the future except when the invocation happens exactly at the
anchor instant (where it equals the invocation time); it falls on the same
calendar day when the anchor has not yet passed, otherwise on the next day,
and its seconds-of-day is always the anchor hour with minute and second
zero. -/
theorem first_run_time_future (H : ℕ) (now : WallClock)
    (hs : now.sod < 86400) :
    toSeconds now ≤ toSeconds (first_run_time H now)
    ∧ (now.sod ≠ (H : ℚ) * 3600 →
        toSeconds now < toSeconds (first_run_time H now))
    ∧ (now.sod ≤ (H : ℚ) * 3600 → (first_run_time H now).day = now.day)
    ∧ ((H : ℚ) * 3600 < now.sod → (first_run_time H now).day = now.day + 1)
    ∧ (first_run_time H now).sod = (H : ℚ) * 3600 := by
  have hH : (0 : ℚ) ≤ (H : ℚ) * 3600 := by positivity
  unfold first_run_time toSeconds
  by_cases h : (H : ℚ) * 3600 < now.sod
  · rw [if_pos h]
    refine ⟨?_, ?_, ?_, ?_, rfl⟩
    · simp only
      push_cast
      linarith
    · intro _
      simp only
      push_cast
      linarith
    · intro hle
      exact absurd h (not_lt.mpr hle)
    · intro _
      rfl
  · rw [if_neg h]
    push_neg at h
    refine ⟨?_, ?_, ?_, ?_, rfl⟩
    · simp only
      linarith
    · intro hne
      have : now.sod < (H : ℚ) * 3600 := lt_of_le_of_ne h hne
      simp only
      linarith
    · intro _
      rfl
    · intro hlt
      exact absurd hlt (not_lt.mpr h)

/-- Witness for C7's amended theorem at `DAILY_HOUR = 20`, invocation time
`00:01:40` of day 0. -/
theorem first_run_time_future_witness :
    toSeconds ⟨0, 100⟩ ≤ toSeconds (first_run_time 20 ⟨0, 100⟩)
    ∧ toSeconds ⟨0, 100⟩ < toSeconds (first_run_time 20 ⟨0, 100⟩)
    ∧ (first_run_time 20 ⟨0, 100⟩).day = 0
    ∧ (first_run_time 20 ⟨0, 100⟩).sod = (20 : ℚ) * 3600 :=
  have h := first_run_time_future 20 ⟨0, 100⟩ (by norm_num)
  ⟨h.1, h.2.1 (by norm_num), h.2.2.1 (by norm_num), h.2.2.2.2⟩

/-! ### The daily job's loop (claim C8) -/

lemma daily_loop_trace (fetch : ℕ → Option String) (sendOk : ℕ → Bool) :
    ∀ (cs : List Channel) (i : ℕ),
    (daily_loop fetch sendOk i cs).map DailyStep.channel = cs
    ∧ (daily_loop fetch sendOk i cs).length = cs.length
    ∧ ∀ j, j < (daily_loop fetch sendOk i cs).length →
        ((daily_loop fetch sendOk i cs).get? j).map DailyStep.fetched
            = some (fetch (i + j))
        ∧ ((daily_loop fetch sendOk i cs).get? j).map DailyStep.sendAttempted
            = some (fetch (i + j)).isSome := by
  intro cs
  induction cs with
  | nil =>
    intro i
    refine ⟨rfl, rfl, ?_⟩
    intro j h
    simp [daily_loop] at h
  | cons c rest ih =>
    intro i
    have hstep :
        daily_loop fetch sendOk i (c :: rest)
          = (match fetch i with
             | some u => (⟨c, some u, true, sendOk i⟩ : DailyStep)
             | none => ⟨c, none, false, false⟩) :: daily_loop fetch sendOk (i + 1) rest := rfl
    refine ⟨?_, ?_, ?_⟩
    · rw [hstep, List.map_cons, (ih (i + 1)).1]
      cases fetch i <;> rfl
    · rw [hstep, List.length_cons, (ih (i + 1)).2.1, List.length_cons]
    · intro j h
      match j with
      | 0 =>
        rw [hstep]
        cases hf : fetch i <;> simp [hf]
      | Nat.succ j' =>
        rw [hstep] at h ⊢
        have h' : j' < (daily_loop fetch sendOk (i + 1) rest).length := by
          simpa [List.length_cons] using Nat.lt_of_succ_lt_succ h
        have hrec := (ih (i + 1)).2.2 j' h'
        have hidx : i + 1 + j' = i + (j' + 1) := by omega
        rw [hidx] at hrec
        simpa [List.get?] using hrec

/-- C8: on a firing of the daily job, every connected guild with a resolvable
target channel is processed strictly in enumeration order; each gets exactly
one meme fetch (the trace has one entry per target, in order, with the fetch
result at that index); a send is attempted iff the fetch returned a url (no
static-phrase fallback); and — because the trace covers every target for all
values of the send-success oracle — a send failure on one target never
prevents processing of the rest. -/
theorem daily_job_one_fetch_per_target (gs : List Guild)
    (fetch : ℕ → Option String) (sendOk : ℕ → Bool) :
    (daily_cat_meme gs fetch sendOk).map DailyStep.channel
        = get_all_target_channels gs
    ∧ (daily_cat_meme gs fetch sendOk).length
        = (get_all_target_channels gs).length
    ∧ ∀ j, j < (daily_cat_meme gs fetch sendOk).length →
        ((daily_cat_meme gs fetch sendOk).get? j).map DailyStep.fetched
            = some (fetch j)
        ∧ ((daily_cat_meme gs fetch sendOk).get? j).map DailyStep.sendAttempted
            = some (fetch j).isSome := by
  have h := daily_loop_trace fetch sendOk (get_all_target_channels gs) 0
  refine ⟨h.1, h.2.1, ?_⟩
  intro j hj
  have := h.2.2 j hj
  simpa [Nat.zero_add] using this

/-- Concrete guilds for the C8 witness: one with a sendable system channel,
one resolved through its general-named channel. -/
def witness_guilds : List Guild :=
  [ ⟨some ⟨"announcements", true, true⟩, []⟩,
    ⟨none, [⟨"off-topic", true, false⟩, ⟨"general-chat", true, true⟩]⟩ ]

/-- Witness for C8: two resolvable targets, the first fetch fails (that guild
silently gets nothing), the second succeeds while its send fails — the trace
still covers both targets in order. -/
theorem daily_job_one_fetch_per_target_witness :
    (daily_cat_meme witness_guilds (fun i => if i = 0 then none else some "https://x/a.png")
        (fun _ => false)).map DailyStep.channel
      = get_all_target_channels witness_guilds
    ∧ ((daily_cat_meme witness_guilds (fun i => if i = 0 then none else some "https://x/a.png")
        (fun _ => false)).get? 0).map DailyStep.fetched = some none
    ∧ ((daily_cat_meme witness_guilds (fun i => if i = 0 then none else some "https://x/a.png")
        (fun _ => false)).get? 1).map DailyStep.sendAttempted = some true := by
  refine ⟨(daily_job_one_fetch_per_target witness_guilds _ _).1, ?_, ?_⟩
  · have := ((daily_job_one_fetch_per_target witness_guilds
      (fun i => if i = 0 then none else some "https://x/a.png") (fun _ => false)).2.2
      0 (by decide)).1
    simpa using this
  · have := ((daily_job_one_fetch_per_target witness_guilds
      (fun i => if i = 0 then none else some "https://x/a.png") (fun _ => false)).2.2
      1 (by decide)).2
    simpa using this

/-! ### The message handler: case equations -/

lemma on_message_blocked_chan (cfg : Config) (o : Oracle) (now : ℚ)
    (st : BotState) (msg : Message) (hbot : msg.authorIsBot = false)
    (hcb : chan_blocked cfg now st msg.channelId = true) :
    on_message cfg o now st msg = (tracked_state st msg, []) := by
  unfold on_message
  simp [hbot, hcb]

lemma on_message_blocked_user (cfg : Config) (o : Oracle) (now : ℚ)
    (st : BotState) (msg : Message) (hbot : msg.authorIsBot = false)
    (hcb : chan_blocked cfg now st msg.channelId = false)
    (hub : user_blocked cfg now st msg.authorId = true) :
    on_message cfg o now st msg = (tracked_state st msg, []) := by
  unfold on_message
  simp [hbot, hcb, hub]

lemma on_message_open_pos (cfg : Config) (o : Oracle) (now : ℚ)
    (st : BotState) (msg : Message) (hbot : msg.authorIsBot = false)
    (hcb : chan_blocked cfg now st msg.channelId = false)
    (hub : user_blocked cfg now st msg.authorId = false)
    (hr1 : (respond_branches cfg o msg.channelId msg.displayName (lowerStr msg.content)
        (decide (10 ≤ st.activity_count msg.authorId + 1))).1 = true) :
    on_message cfg o now st msg =
      ({ tracked_state st msg with
          last_channel_reply := fun c =>
            if c = msg.channelId then some now else st.last_channel_reply c
          last_user_reply := fun u =>
            if u = msg.authorId then some now else st.last_user_reply u },
        (respond_branches cfg o msg.channelId msg.displayName (lowerStr msg.content)
          (decide (10 ≤ st.activity_count msg.authorId + 1))).2) := by
  unfold on_message
  generalize hact : decide (10 ≤ st.activity_count msg.authorId + 1) = act at hr1 ⊢
  simp [hbot, hcb, hub, hr1]

lemma on_message_open_neg (cfg : Config) (o : Oracle) (now : ℚ)
    (st : BotState) (msg : Message) (hbot : msg.authorIsBot = false)
    (hcb : chan_blocked cfg now st msg.channelId = false)
    (hub : user_blocked cfg now st msg.authorId = false)
    (hr1 : (respond_branches cfg o msg.channelId msg.displayName (lowerStr msg.content)
        (decide (10 ≤ st.activity_count msg.authorId + 1))).1 = false) :
    on_message cfg o now st msg =
      (tracked_state st msg,
        (respond_branches cfg o msg.channelId msg.displayName (lowerStr msg.content)
          (decide (10 ≤ st.activity_count msg.authorId + 1))).2) := by
  unfold on_message
  generalize hact : decide (10 ≤ st.activity_count msg.authorId + 1) = act at hr1 ⊢
  simp [hbot, hcb, hub, hr1]

lemma on_message_open_acts (cfg : Config) (o : Oracle) (now : ℚ)
    (st : BotState) (msg : Message) (hbot : msg.authorIsBot = false)
    (hcb : chan_blocked cfg now st msg.channelId = false)
    (hub : user_blocked cfg now st msg.authorId = false) :
    (on_message cfg o now st msg).2
      = (respond_branches cfg o msg.channelId msg.displayName (lowerStr msg.content)
          (decide (10 ≤ st.activity_count msg.authorId + 1))).2 := by
  cases hr1 : (respond_branches cfg o msg.channelId msg.displayName (lowerStr msg.content)
      (decide (10 ≤ st.activity_count msg.authorId + 1))).1 with
  | true => rw [on_message_open_pos cfg o now st msg hbot hcb hub hr1]
  | false => rw [on_message_open_neg cfg o now st msg hbot hcb hub hr1]

lemma respond_branches_responded (cfg : Config) (o : Oracle) (cid : ℕ)
    (name : String) (cl : List Char) (act : Bool) :
    (respond_branches cfg o cid name cl act).1
      = (!(respond_branches cfg o cid name cl act).2.isEmpty && o.sendOk) := by
  unfold respond_branches
  split
  · split <;> simp
  · split
    · simp
    · split
      · split <;> simp
      · simp

/-! ### Claim C1: the cooldown gate -/

/-- C1: a non-bot message arriving while its channel is within
`CHANNEL_COOLDOWN` of the channel's last recorded reply, or while its sender
is within `USER_COOLDOWN` of the sender's last recorded reply, produces no
outbound action, yet the sender's activity count is still incremented and the
message text is still appended to (and is the last entry of) the sender's
message history. -/
theorem cooldown_gate_no_action_still_counts
    (cfg : Config) (o : Oracle) (now : ℚ) (st : BotState) (msg : Message)
    (hbot : msg.authorIsBot = false)
    (hcool :
      (∃ t, st.last_channel_reply msg.channelId = some t
          ∧ now - t < cfg.channelCooldown)
      ∨ (∃ t, st.last_user_reply msg.authorId = some t
          ∧ now - t < cfg.userCooldown)) :
    (on_message cfg o now st msg).2 = []
    ∧ (on_message cfg o now st msg).1.activity_count msg.authorId
        = st.activity_count msg.authorId + 1
    ∧ (on_message cfg o now st msg).1.user_message_history msg.authorId
        = append_history (st.user_message_history msg.authorId) msg.content
    ∧ ((on_message cfg o now st msg).1.user_message_history msg.authorId).getLast?
        = some msg.content := by
  have hbase : on_message cfg o now st msg = (tracked_state st msg, []) := by
    rcases hcool with ⟨t, ht, hlt⟩ | ⟨t, ht, hlt⟩
    · have hcb : chan_blocked cfg now st msg.channelId = true := by
        unfold chan_blocked
        rw [ht]
        exact decide_eq_true hlt
      exact on_message_blocked_chan cfg o now st msg hbot hcb
    · cases hcb : chan_blocked cfg now st msg.channelId with
      | true => exact on_message_blocked_chan cfg o now st msg hbot hcb
      | false =>
        have hub : user_blocked cfg now st msg.authorId = true := by
          unfold user_blocked
          rw [ht]
          exact decide_eq_true hlt
        exact on_message_blocked_user cfg o now st msg hbot hcb hub
  rw [hbase]
  refine ⟨rfl, ?_, ?_, ?_⟩
  · simp [tracked_state]
  · simp [tracked_state]
  · simp [tracked_state, append_history_getLast]

/-- Witness for C1: channel 1 replied at t=100, message at t=110 with the
default 20-second channel cooldown; sender 7 has 3 prior messages. -/
theorem cooldown_gate_no_action_still_counts_witness :
    (on_message ⟨9/10, 20, 60, true⟩
        ⟨0, 0, 0, 0, 0, 0, some "https://x/a.png", some "hi", true⟩ 110
        ⟨fun c => if c = 1 then some 100 else none, fun _ => none,
          fun u => if u = 7 then 3 else 0, fun _ => []⟩
        ⟨7, false, "alice", 1, "meow cats"⟩).2 = []
    ∧ (on_message ⟨9/10, 20, 60, true⟩
        ⟨0, 0, 0, 0, 0, 0, some "https://x/a.png", some "hi", true⟩ 110
        ⟨fun c => if c = 1 then some 100 else none, fun _ => none,
          fun u => if u = 7 then 3 else 0, fun _ => []⟩
        ⟨7, false, "alice", 1, "meow cats"⟩).1.activity_count 7
        = (if (7 : ℕ) = 7 then (3 : ℕ) else 0) + 1
    ∧ (on_message ⟨9/10, 20, 60, true⟩
        ⟨0, 0, 0, 0, 0, 0, some "https://x/a.png", some "hi", true⟩ 110
        ⟨fun c => if c = 1 then some 100 else none, fun _ => none,
          fun u => if u = 7 then 3 else 0, fun _ => []⟩
        ⟨7, false, "alice", 1, "meow cats"⟩).1.user_message_history 7
        = append_history [] "meow cats"
    ∧ ((on_message ⟨9/10, 20, 60, true⟩
        ⟨0, 0, 0, 0, 0, 0, some "https://x/a.png", some "hi", true⟩ 110
        ⟨fun c => if c = 1 then some 100 else none, fun _ => none,
          fun u => if u = 7 then 3 else 0, fun _ => []⟩
        ⟨7, false, "alice", 1, "meow cats"⟩).1.user_message_history 7).getLast?
        = some "meow cats" :=
  cooldown_gate_no_action_still_counts _ _ _ _ _ rfl
    (Or.inl ⟨100, rfl, by norm_num⟩)

/-! ### Claim C2: cooldowns updated iff an outbound action was produced -/

/-- C2: a handled (non-bot) message updates `last_channel_reply[channel]` and
`last_user_reply[user]`, both to the same timestamp `now`, exactly when some
branch produced an outbound action (an attempted send/reaction that
succeeded); when no branch fired or the attempted send/reaction failed, both
cooldown maps are left completely unchanged. -/
theorem cooldowns_update_iff_responded
    (cfg : Config) (o : Oracle) (now : ℚ) (st : BotState) (msg : Message)
    (hbot : msg.authorIsBot = false) :
    (((on_message cfg o now st msg).2 ≠ [] ∧ o.sendOk = true) →
      (on_message cfg o now st msg).1.last_channel_reply
          = (fun c => if c = msg.channelId then some now else st.last_channel_reply c)
      ∧ (on_message cfg o now st msg).1.last_user_reply
          = (fun u => if u = msg.authorId then some now else st.last_user_reply u))
    ∧ (¬((on_message cfg o now st msg).2 ≠ [] ∧ o.sendOk = true) →
      (on_message cfg o now st msg).1.last_channel_reply = st.last_channel_reply
      ∧ (on_message cfg o now st msg).1.last_user_reply = st.last_user_reply) := by
  cases hcb : chan_blocked cfg now st msg.channelId with
  | true =>
    rw [on_message_blocked_chan cfg o now st msg hbot hcb]
    exact ⟨fun h => absurd rfl h.1, fun _ => ⟨rfl, rfl⟩⟩
  | false =>
    cases hub : user_blocked cfg now st msg.authorId with
    | true =>
      rw [on_message_blocked_user cfg o now st msg hbot hcb hub]
      exact ⟨fun h => absurd rfl h.1, fun _ => ⟨rfl, rfl⟩⟩
    | false =>
      have hflag := respond_branches_responded cfg o msg.channelId msg.displayName
        (lowerStr msg.content) (decide (10 ≤ st.activity_count msg.authorId + 1))
      cases hr1 : (respond_branches cfg o msg.channelId msg.displayName
          (lowerStr msg.content) (decide (10 ≤ st.activity_count msg.authorId + 1))).1 with
      | true =>
        rw [hr1] at hflag
        rw [on_message_open_pos cfg o now st msg hbot hcb hub hr1]
        constructor
        · intro _
          exact ⟨rfl, rfl⟩
        · intro hn
          exfalso
          apply hn
          cases hL : (respond_branches cfg o msg.channelId msg.displayName
              (lowerStr msg.content)
              (decide (10 ≤ st.activity_count msg.authorId + 1))).2 with
          | nil => rw [hL] at hflag; simp at hflag
          | cons a l =>
            rw [hL] at hflag
            simp only [List.isEmpty_cons, Bool.not_false, Bool.true_and] at hflag
            exact ⟨List.cons_ne_nil a l, hflag.symm⟩
      | false =>
        rw [hr1] at hflag
        rw [on_message_open_neg cfg o now st msg hbot hcb hub hr1]
        constructor
        · rintro ⟨hne, hsk⟩
          exfalso
          cases hL : (respond_branches cfg o msg.channelId msg.displayName
              (lowerStr msg.content)
              (decide (10 ≤ st.activity_count msg.authorId + 1))).2 with
          | nil => exact hne hL
          | cons a l =>
            rw [hL] at hflag
            simp [hsk] at hflag
        · intro _
          exact ⟨rfl, rfl⟩

/-! ### The branch cascade with no keyword match -/

lemma chan_blocked_none (cfg : Config) (now : ℚ) (st : BotState) (cid : ℕ)
    (h : st.last_channel_reply cid = none) :
    chan_blocked cfg now st cid = false := by
  unfold chan_blocked
  rw [h]

lemma user_blocked_none (cfg : Config) (now : ℚ) (st : BotState) (uid : ℕ)
    (h : st.last_user_reply uid = none) :
    user_blocked cfg now st uid = false := by
  unfold user_blocked
  rw [h]

lemma respond_branches_no_keyword (cfg : Config) (o : Oracle) (cid : ℕ)
    (name : String) (cl : List Char) (act : Bool)
    (hkw : (cat_keywords.any fun kw => occurs kw.data cl) = false) :
    respond_branches cfg o cid name cl act =
      (if cfg.openaiClient && (act || decide (o.augDraw < 2/5)) then
        (o.sendOk, [Action.sendMessage cid (augmented_reply o name)])
      else if o.fbDraw < cfg.probability * (1/2) then
        if o.reactDraw < 3/10 then
          (o.sendOk, [Action.addReaction (reactions.getD (o.reactIdx % 7) "")])
        else
          (o.sendOk, [Action.sendMessage cid (cat_phrases.getD (o.phraseIdx % 12) "")])
      else (false, [])) := by
  unfold respond_branches
  rw [hkw]
  simp

lemma at_mem_of_shape (a b n : String) (ha : '@' ∈ a.data) :
    '@' ∈ ((a ++ n) ++ b).data := by
  rw [data_append, data_append]
  exact List.mem_append_left _ (List.mem_append_left _ ha)

/-- Every augmented-branch reply text carries an `@` mention. -/
lemma at_mem_augmented_reply (o : Oracle) (name : String) :
    '@' ∈ (augmented_reply o name).data := by
  unfold augmented_reply
  cases h : o.aiResult with
  | some t =>
    show '@' ∈ ((("@" ++ name) ++ " ") ++ t).data
    rw [data_append, data_append, data_append]
    exact List.mem_append_left _ (List.mem_append_left _
      (List.mem_append_left _ (by decide)))
  | none =>
    show '@' ∈ ((personal_responses name).getD (o.personalIdx % 6) "").data
    set m := o.personalIdx % 6 with hm
    have h6 : m < 6 := by
      rw [hm]
      exact Nat.mod_lt _ (by norm_num)
    interval_cases m
    · exact at_mem_of_shape "@" ", you\x27re purrfect! 😺" name (by decide)
    · exact at_mem_of_shape "Hey @" "! *headbutts affectionately* 🐾" name (by decide)
    · exact at_mem_of_shape "@" ", stop hogging all the attention! 😹" name (by decide)
    · exact at_mem_of_shape "Paws up, @" "! You\x27re awesome! 🐾" name (by decide)
    · exact at_mem_of_shape "*meows at @" "* Notice me! 🐱" name (by decide)
    · exact at_mem_of_shape "@" ", you deserve all the treats! 🐟" name (by decide)

/-- No ambient cat phrase carries an `@` mention. -/
lemma at_not_mem_phrase (k : ℕ) :
    '@' ∉ (cat_phrases.getD (k % 12) "").data := by
  have h12 : k % 12 < 12 := Nat.mod_lt _ (by norm_num)
  set m := k % 12
  interval_cases m <;> decide

/-! ### Claim C3 (corrected): entering the augmented branch -/

/-- The default configuration when no completion-service credential is set:
`openai_client` is `None`. -/
def cfg_nc : Config := ⟨9/10, 20, 60, false⟩

/-- The default configuration with a completion-service credential present. -/
def cfg_cl : Config := ⟨9/10, 20, 60, true⟩

/-- A fresh state: no cooldowns, no activity, no history. -/
def st0 : BotState := ⟨fun _ => none, fun _ => none, fun _ => 0, fun _ => []⟩

/-- A state where user 7 already has 50 observed messages (an active user),
with no cooldowns recorded. -/
def st_active : BotState :=
  ⟨fun _ => none, fun _ => none, fun u => if u = 7 then 50 else 0, fun _ => []⟩

/-- A keyword-free message from user 7 in channel 1. -/
def msg_hello : Message := ⟨7, false, "alice", 1, "hello"⟩

/-- An oracle with a favourable augmented draw (`0 < 0.4`), an unfavourable
ambient draw, and a completion reply available. -/
def o_aug : Oracle := ⟨0, 1, 0, 0, 0, 0, none, some "hi", true⟩

/-- C3 counterexample: an active sender (post-increment count 51 ≥ 10) whose
keyword-free message passes the cooldown gate is NOT routed to the augmented
branch when no completion client is configured — the handler produces no
outbound action at all, falsifying the claim's unconditional
probability-1.0 entry. -/
theorem augmented_needs_client_counterexample :
    (10 ≤ st_active.activity_count 7 + 1)
    ∧ hasCatKeyword "hello" = false
    ∧ st_active.last_channel_reply 1 = none
    ∧ st_active.last_user_reply 7 = none
    ∧ (on_message cfg_nc o_aug 1000 st_active msg_hello).2 = [] := by
  refine ⟨by decide, by decide, rfl, rfl, ?_⟩
  rw [on_message_open_acts cfg_nc o_aug 1000 st_active msg_hello rfl rfl rfl]
  rw [respond_branches_no_keyword _ _ _ _ _ _ (by decide)]
  simp [cfg_nc, o_aug]
  norm_num

/-- C3 (amended): provided the completion client is configured, a message
passing the cooldown gate (neither the channel nor the user check blocks it —
the entry may be absent or merely expired) with no cat keyword routes an
active sender (post-increment activity count ≥ 10) to the augmented branch
for every value of the random draw, and any other sender iff the draw is
below the fixed threshold 0.4. -/
theorem augmented_entry_with_client
    (cfg : Config) (o : Oracle) (now : ℚ) (st : BotState) (msg : Message)
    (hbot : msg.authorIsBot = false)
    (hcb : chan_blocked cfg now st msg.channelId = false)
    (hub : user_blocked cfg now st msg.authorId = false)
    (hkw : hasCatKeyword msg.content = false)
    (hcli : cfg.openaiClient = true) :
    ((10 ≤ st.activity_count msg.authorId + 1) →
      (on_message cfg o now st msg).2
        = [Action.sendMessage msg.channelId (augmented_reply o msg.displayName)])
    ∧ (¬(10 ≤ st.activity_count msg.authorId + 1) →
      ((on_message cfg o now st msg).2
          = [Action.sendMessage msg.channelId (augmented_reply o msg.displayName)]
        ↔ o.augDraw < 2/5)) := by
  rw [on_message_open_acts cfg o now st msg hbot hcb hub]
  rw [respond_branches_no_keyword _ _ _ _ _ _ hkw]
  rw [hcli]
  constructor
  · intro hact
    rw [decide_eq_true hact]
    simp
  · intro hact
    rw [decide_eq_false hact]
    simp only [Bool.true_and, Bool.false_or]
    by_cases hdraw : o.augDraw < 2/5
    · rw [decide_eq_true hdraw]
      simp [hdraw]
    · rw [decide_eq_false hdraw]
      constructor
      · intro heq
        exfalso
        by_cases hfb : o.fbDraw < cfg.probability * (1/2)
        · rw [if_neg (by simp), if_pos hfb] at heq
          by_cases hrd : o.reactDraw < 3/10
          · rw [if_pos hrd] at heq
            simp at heq
          · rw [if_neg hrd] at heq
            simp only [List.cons.injEq, and_true, Action.sendMessage.injEq,
              true_and] at heq
            have h1 := at_mem_augmented_reply o msg.displayName
            have h2 := at_not_mem_phrase o.phraseIdx
            rw [← heq] at h1
            exact h2 h1
        · rw [if_neg (by simp), if_neg hfb] at heq
          simp at heq
      · intro hdraw'
        exact absurd hdraw' hdraw

/-- Witness for C3's amended theorem: with the client configured, the active
sender's keyword-free message is answered by the augmented branch. -/
theorem augmented_entry_with_client_witness :
    (on_message cfg_cl o_aug 1000 st_active msg_hello).2
      = [Action.sendMessage msg_hello.channelId
          (augmented_reply o_aug msg_hello.displayName)] :=
  (augmented_entry_with_client cfg_cl o_aug 1000 st_active msg_hello
    rfl rfl rfl (by decide) rfl).1 (by decide)

/-- An oracle whose ambient-fallback draw fires and selects the phrase
sub-branch. -/
def o_fb : Oracle := ⟨1, 0, 1, 0, 0, 0, none, none, true⟩

/-- Witness for C2: a responded message (ambient phrase sent successfully)
stamps both cooldown maps with `now = 50`. -/
theorem cooldowns_update_iff_responded_witness :
    (on_message cfg_nc o_fb 50 st0 msg_hello).1.last_channel_reply
        = (fun c => if c = 1 then some 50 else st0.last_channel_reply c)
    ∧ (on_message cfg_nc o_fb 50 st0 msg_hello).1.last_user_reply
        = (fun u => if u = 7 then some 50 else st0.last_user_reply u) := by
  have hacts : (on_message cfg_nc o_fb 50 st0 msg_hello).2
      = [Action.sendMessage 1 (cat_phrases.getD 0 "")] := by
    rw [on_message_open_acts cfg_nc o_fb 50 st0 msg_hello rfl rfl rfl,
      respond_branches_no_keyword _ _ _ _ _ _ (by decide)]
    norm_num [cfg_nc, o_fb, msg_hello]
  exact (cooldowns_update_iff_responded cfg_nc o_fb 50 st0 msg_hello rfl).1
    ⟨by rw [hacts]; exact List.cons_ne_nil _ _, rfl⟩

lemma occurs_at (preInit nd sufd : List Char) :
    occurs ('@' :: nd) (((preInit ++ ['@']) ++ nd) ++ sufd) = true := by
  have h : ((preInit ++ ['@']) ++ nd) ++ sufd = preInit ++ (('@' :: nd) ++ sufd) := by
    simp [List.append_assoc]
  rw [h]
  exact occurs_mid preInit sufd ('@' :: nd)

/-! ### Claim C5: the augmented branch's personalized fallback -/

/-- C5: when the augmented branch is entered — cooldown gate passed (whether
the entries are absent or merely expired), no keyword, client configured,
guard satisfied — and the completion provider returns nothing, the handler
attempts exactly one send whose text is the uniformly chosen entry of the
fixed six-element personalized-fallback set, and every entry of that set
addresses the sender by `@display-name` — never silence, and (the embedding
being total) never an error to the caller. -/
theorem augmented_fallback_personalized
    (cfg : Config) (o : Oracle) (now : ℚ) (st : BotState) (msg : Message)
    (hbot : msg.authorIsBot = false)
    (hcb : chan_blocked cfg now st msg.channelId = false)
    (hub : user_blocked cfg now st msg.authorId = false)
    (hkw : hasCatKeyword msg.content = false)
    (hcli : cfg.openaiClient = true)
    (henter : (10 ≤ st.activity_count msg.authorId + 1) ∨ o.augDraw < 2/5)
    (hai : o.aiResult = none) :
    (on_message cfg o now st msg).2
      = [Action.sendMessage msg.channelId
          ((personal_responses msg.displayName).getD (o.personalIdx % 6) "")]
    ∧ (personal_responses msg.displayName).length = 6
    ∧ ∀ i, i < 6 →
        occurs ("@" ++ msg.displayName).data
          ((personal_responses msg.displayName).getD i "").data = true := by
  refine ⟨?_, rfl, ?_⟩
  · rw [on_message_open_acts cfg o now st msg hbot hcb hub,
      respond_branches_no_keyword _ _ _ _ _ _ hkw, hcli]
    have hcond : (decide (10 ≤ st.activity_count msg.authorId + 1)
        || decide (o.augDraw < 2/5)) = true := by
      rcases henter with h | h
      · rw [decide_eq_true h]
        exact Bool.true_or _
      · rw [decide_eq_true h]
        exact Bool.or_true _
    rw [hcond]
    simp [augmented_reply, hai]
  · intro i hi
    interval_cases i
    · exact occurs_at [] msg.displayName.data (", you\x27re purrfect! 😺".data)
    · exact occurs_at ("Hey ".data) msg.displayName.data
        ("! *headbutts affectionately* 🐾".data)
    · exact occurs_at [] msg.displayName.data
        (", stop hogging all the attention! 😹".data)
    · exact occurs_at ("Paws up, ".data) msg.displayName.data
        ("! You\x27re awesome! 🐾".data)
    · exact occurs_at ("*meows at ".data) msg.displayName.data
        ("* Notice me! 🐱".data)
    · exact occurs_at [] msg.displayName.data
        (", you deserve all the treats! 🐟".data)

/-- An oracle entering the augmented branch with the provider returning
nothing, uniform choice landing on index 4. -/
def o_pf : Oracle := ⟨0, 1, 0, 0, 0, 4, none, none, true⟩

/-- Witness for C5: the active sender's message gets the index-4 personalized
fallback phrase, which mentions `@alice`. -/
theorem augmented_fallback_personalized_witness :
    (on_message cfg_cl o_pf 1000 st_active msg_hello).2
      = [Action.sendMessage 1 ((personal_responses "alice").getD (4 % 6) "")]
    ∧ (personal_responses "alice").length = 6
    ∧ occurs ("@" ++ "alice").data
        ((personal_responses "alice").getD 2 "").data = true :=
  have h := augmented_fallback_personalized cfg_cl o_pf 1000 st_active msg_hello
    rfl rfl rfl (by decide) rfl (Or.inl (by decide)) rfl
  ⟨h.1, h.2.1, h.2.2 2 (by norm_num)⟩

/-! ### Claim C10: no completion client, ambient fallback only -/

/-- C10: with no completion-service credential configured, a keyword-free
non-bot message that passes the cooldown gate (neither check blocks it —
entries absent or merely expired) is never routed to the augmented branch —
for every sender, including those with activity count ≥ 10, and for every
draw and provider result — and instead reaches the ambient fallback branch,
which fires exactly when the draw is below `PROBABILITY * 0.5`. -/
theorem no_client_ambient_fallback
    (cfg : Config) (o : Oracle) (now : ℚ) (st : BotState) (msg : Message)
    (hbot : msg.authorIsBot = false)
    (hcb : chan_blocked cfg now st msg.channelId = false)
    (hub : user_blocked cfg now st msg.authorId = false)
    (hkw : hasCatKeyword msg.content = false)
    (hcli : cfg.openaiClient = false) :
    (on_message cfg o now st msg).2
      = (if o.fbDraw < cfg.probability * (1/2) then
          (if o.reactDraw < 3/10 then
            [Action.addReaction (reactions.getD (o.reactIdx % 7) "")]
          else
            [Action.sendMessage msg.channelId (cat_phrases.getD (o.phraseIdx % 12) "")])
        else []) := by
  rw [on_message_open_acts cfg o now st msg hbot hcb hub,
    respond_branches_no_keyword _ _ _ _ _ _ hkw, hcli]
  simp only [Bool.false_and]
  split_ifs <;> simp_all

/-- An oracle whose ambient draw fires and selects the reaction sub-branch. -/
def o_react : Oracle := ⟨1, 0, 0, 2, 0, 0, none, some "hi", true⟩

/-- A steady-state snapshot: the bot last replied in channel 1 and to user 7
at t=100, both entries recorded (not deleted) but expired by t=1000 under the
default 20s/60s cooldowns; user 7 is active (50 messages). -/
def st_expired : BotState :=
  ⟨fun c => if c = 1 then some 100 else none,
    fun u => if u = 7 then some 100 else none,
    fun u => if u = 7 then 50 else 0,
    fun _ => []⟩

/-- Witness for C10: an active sender whose recorded cooldowns have expired
(the gate passes on expired entries, not just absent ones) gets an ambient
reaction, not an augmented reply, when no client is configured. -/
theorem no_client_ambient_fallback_witness :
    (on_message cfg_nc o_react 1000 st_expired msg_hello).2
      = (if o_react.fbDraw < cfg_nc.probability * (1/2) then
          (if o_react.reactDraw < 3/10 then
            [Action.addReaction (reactions.getD (o_react.reactIdx % 7) "")]
          else
            [Action.sendMessage 1 (cat_phrases.getD (o_react.phraseIdx % 12) "")])
        else []) := by
  have hcb : chan_blocked cfg_nc 1000 st_expired 1 = false := by
    show decide ((1000 : ℚ) - 100 < cfg_nc.channelCooldown) = false
    exact decide_eq_false (by norm_num [cfg_nc])
  have hub : user_blocked cfg_nc 1000 st_expired 7 = false := by
    show decide ((1000 : ℚ) - 100 < cfg_nc.userCooldown) = false
    exact decide_eq_false (by norm_num [cfg_nc])
  exact no_client_ambient_fallback cfg_nc o_react 1000 st_expired msg_hello
    rfl hcb hub (by decide) rfl

end Purruga
